import Mathlib

/-!
Verification of the royal-road-cli repository: a shallow embedding of the
extraction engine (api client), the text reflow/formatter, the pagination
and reading state machine (internal/ui/reader.go) and the progress tracker
(internal/config/config.go), together with theorems settling the frozen
claims about the natural-language specification.

Machine integers are modelled as `Nat`/`Int` (the Go code never relies on
overflow in the regions covered here); Go `float64` values (chapter
progress fractions, rating scores) are modelled as `ℚ`, which is exact
where the code performs only multiplication, division and comparison on
small values.
-/

namespace RoyalRoad

/-! ## String utilities (models of Go `strings` package operations) -/

/-- Model of `strings.Split(s, sep)` for a single-character separator:
split at every occurrence of the character, keeping empty fields.
`strings.Split("", sep)` is `[""]`, so the result is never empty. -/
def splitOnChar (sep : Char) : List Char → List (List Char)
  | [] => [[]]
  | c :: cs =>
    if c = sep then [] :: splitOnChar sep cs
    else
      match splitOnChar sep cs with
      | [] => [[c]]
      | y :: ys => (c :: y) :: ys

/-- Model of `strings.Split(s, "\n")` as used for paging chapter content. -/
def splitLines (s : String) : List String :=
  (splitOnChar '\n' s.data).map (fun l => String.mk l)

/-- Does `pat` occur at the start of `l`?  (model of a literal-prefix test). -/
def leadsWith : List Char → List Char → Bool
  | [], _ => true
  | _ :: _, [] => false
  | p :: ps, c :: cs => p == c && leadsWith ps cs

/-- Does `pat` occur anywhere inside `l`? -/
def hasSub (pat : List Char) : List Char → Bool
  | [] => leadsWith pat []
  | c :: cs => leadsWith pat (c :: cs) || hasSub pat cs

/-- Model of Go `strings.Contains(s, sub)`. -/
def strContains (s sub : String) : Bool :=
  hasSub sub.data s.data

/-- Numeric value of a digit run (model of `strconv.Atoi` on an all-digit
string; the claims never exercise Go's `int` overflow error path). -/
def digitsVal (l : List Char) : Nat :=
  l.foldl (fun acc c => acc * 10 + (c.toNat - 48)) 0

/-- Model of `strconv.Atoi`: optional sign followed by one or more digits;
anything else is an error (`none`). -/
def atoi? (s : String) : Option Int :=
  match s.data with
  | [] => none
  | '-' :: ds => if ds ≠ [] ∧ ds.all Char.isDigit then some (-(digitsVal ds : Int)) else none
  | '+' :: ds => if ds ≠ [] ∧ ds.all Char.isDigit then some ((digitsVal ds : Int)) else none
  | ds => if ds.all Char.isDigit then some ((digitsVal ds : Int)) else none

/-- The whitespace class of Go's `regexp` `\s`: `[\t\n\f\r ]`. -/
def isGoWs (c : Char) : Bool :=
  c = ' ' || c = '\t' || c = '\n' || c = '\x0c' || c = '\r'

/-- Split at every character satisfying `p`, keeping empty fields
(the split step of Go `strings.FieldsFunc`-style scanning). -/
def splitOnPred (p : Char → Bool) : List Char → List (List Char)
  | [] => [[]]
  | c :: cs =>
    if p c then [] :: splitOnPred p cs
    else
      match splitOnPred p cs with
      | [] => [[c]]
      | y :: ys => (c :: y) :: ys

/-- Model of `strings.Split(s, sep)` for a non-empty separator, written
with an explicit fuel so the recursion is structural (fuel
`s.length + 1` always suffices: each step consumes at least one
character). -/
def splitOnStrAux (sep : List Char) : Nat → List Char → List (List Char)
  | _, [] => [[]]
  | 0, l => [l]
  | fuel + 1, c :: cs =>
    if leadsWith sep (c :: cs) then
      [] :: splitOnStrAux sep fuel ((c :: cs).drop sep.length)
    else
      match splitOnStrAux sep fuel cs with
      | [] => [[c]]
      | y :: ys => (c :: y) :: ys

/-- Model of `strings.Split(s, sep)` (non-empty `sep`). -/
def splitOnStr (s sep : String) : List String :=
  (splitOnStrAux sep.data (s.data.length + 1) s.data).map (fun l => String.mk l)

/-- Model of `strings.TrimSpace`: drop whitespace from both ends. -/
def trimChars (l : List Char) : List Char :=
  ((l.dropWhile Char.isWhitespace).reverse.dropWhile Char.isWhitespace).reverse

def trimStr (s : String) : String :=
  String.mk (trimChars s.data)

/-- Model of `strings.Join(parts, sep)`. -/
def joinWith (sep : String) : List String → String
  | [] => ""
  | [x] => x
  | x :: xs => x ++ sep ++ joinWith sep xs

/-- Model of `strings.HasSuffix`. -/
def endsWithStr (s suffix : String) : Bool :=
  leadsWith suffix.data.reverse s.data.reverse

/-! ## Progress tracker (internal/config/config.go) -/

/-- Mirror of `config.ReadingEntry`: the persisted position record for one work.
`ChapterProgress` is a `float64` fraction in the source, modelled as `ℚ`. -/
structure ReadingEntry where
  fictionID : String
  fictionTitle : String
  author : String
  currentChapter : Int
  chapterTitle : String
  chapterProgress : ℚ
  lastRead : String
  totalChapters : Nat
  deriving Repr, DecidableEq, Inhabited

/-- Remove the first entry whose `FictionID` matches, if any.  This is the
net effect of the in-place slice surgery in `UpdateReadingProgress`:
`append(c.ReadingHistory[:i], c.ReadingHistory[i+1:]...)` shifts the tail
left over position `i` (the element written at `i` beforehand is
overwritten again), deleting exactly the first matching entry. -/
def removeFirstMatch (fid : String) : List ReadingEntry → Option (List ReadingEntry)
  | [] => none
  | x :: xs =>
    if x.fictionID == fid then some xs
    else (removeFirstMatch fid xs).map (fun r => x :: r)

/-- Model of `Config.UpdateReadingProgress`: upsert-and-promote.  If an entry with
the same `FictionID` exists, the first such entry is replaced by `entry`
and moved to the front (the `i == 0` fast path in the source coincides
with this); otherwise `entry` is prepended. -/
def updateReadingProgress (history : List ReadingEntry) (entry : ReadingEntry) :
    List ReadingEntry :=
  match removeFirstMatch entry.fictionID history with
  | some rest => entry :: rest
  | none => entry :: history

/-- Model of `Config.GetReadingHistoryPage(page, pageSize)`: returns the page slice,
total page count, `hasNext` and `hasPrev`.  Faithful for `pageSize ≥ 1`
(a zero page size would divide by zero and panic in Go). -/
def getReadingHistoryPage (history : List ReadingEntry) (page pageSize : Nat) :
    List ReadingEntry × Nat × Bool × Bool :=
  let total := history.length
  if total = 0 then ([], 0, false, false)
  else
    let totalPages := (total + pageSize - 1) / pageSize
    let page1 := if page < 1 then 1 else page
    let page2 := if page1 > totalPages then totalPages else page1
    let start := (page2 - 1) * pageSize
    let stop := min (start + pageSize) total
    ((history.drop start).take (stop - start), totalPages,
      decide (page2 < totalPages), decide (page2 > 1))

/-- Model of `Config.GetLastReadEntry`: head of the most-recent-first history. -/
def getLastReadEntry (history : List ReadingEntry) : Option ReadingEntry :=
  history.head?

/-- Convenience constructor for concrete `ReadingEntry` values in witnesses. -/
def mkEntry (fid title auth : String) (cur : Int) (ctitle : String) (prog : ℚ)
    (last : String) (tot : Nat) : ReadingEntry :=
  ⟨fid, title, auth, cur, ctitle, prog, last, tot⟩

/-! ## Extraction engine: domain entities (internal/api/types.go) -/

/-- Mirror of `api.FictionScore`; `float64` scores modelled as `ℚ`. -/
structure FictionScore where
  style : ℚ
  story : ℚ
  grammar : ℚ
  overall : ℚ
  character : ℚ
  deriving Repr, DecidableEq, Inhabited

/-- Mirror of `api.FictionViews`. -/
structure FictionViews where
  total : Int
  average : Int
  deriving Repr, DecidableEq, Inhabited

/-- Mirror of `api.FictionStats`. -/
structure FictionStats where
  pages : Int
  ratings : Int
  favorites : Int
  followers : Int
  views : FictionViews
  score : FictionScore
  deriving Repr, DecidableEq, Inhabited

/-- Mirror of `api.FictionAuthor`. -/
structure FictionAuthor where
  id : Int
  name : String
  title : String
  avatar : String
  deriving Repr, DecidableEq, Inhabited

/-- Mirror of `api.FictionChapter`; the release `time.Time` is modelled as an `Int`
timestamp (seconds). -/
structure FictionChapter where
  id : Int
  title : String
  release : Int
  deriving Repr, DecidableEq, Inhabited

/-- Mirror of `api.Fiction`. -/
structure Fiction where
  id : Int
  type : String
  title : String
  image : String
  status : String
  tags : List String
  warnings : List String
  description : String
  stats : FictionStats
  author : FictionAuthor
  chapters : List FictionChapter
  deriving Repr, DecidableEq, Inhabited

/-- Mirror of `api.Chapter`. -/
structure Chapter where
  content : String
  preNote : String
  postNote : String
  next : Int
  previous : Int
  deriving Repr, DecidableEq, Inhabited

/-- The Go zero value of `FictionStats`, as produced by the
`fiction := &Fiction{ID: id}` literal at the top of `parseFiction`:
every numeric field, including all five scores, starts at 0. -/
def zeroStats : FictionStats :=
  ⟨0, 0, 0, 0, ⟨0, 0⟩, ⟨0, 0, 0, 0, 0⟩⟩

/-! ## Extraction engine: the stats block (parseStats in the api client) -/

/-- One `li` element of an "unstyled list" region inside the stats block:
its display text and the `data-content` attribute of its inner span, when
that attribute exists. -/
structure StatsItem where
  text : String
  dataContent : Option String
  deriving Repr, DecidableEq, Inhabited

/-- The `parseNumber` closure: strip the characters of the regexp class
`[,\s]` and run `strconv.Atoi`; unparseable text yields 0. -/
def parseNumber (raw : String) : Int :=
  (atoi? (String.mk (raw.data.filter (fun c => !(c == ',' || isGoWs c))))).getD 0

/-- The fractional value of a plain decimal literal `ip.fp`. -/
def decimalVal (ip fp : List Char) : ℚ :=
  (digitsVal ip : ℚ) + (digitsVal fp : ℚ) / ((10 : ℚ) ^ fp.length)

/-- Unsigned core of `parseFloat?`. -/
def parseFloatCore (l : List Char) : Option ℚ :=
  match splitOnChar '.' l with
  | [ip] => if ip ≠ [] ∧ ip.all Char.isDigit then some ((digitsVal ip : ℚ)) else none
  | [ip, fp] =>
    if (ip ≠ [] ∨ fp ≠ []) ∧ ip.all Char.isDigit ∧ fp.all Char.isDigit then
      some (decimalVal ip fp)
    else none
  | _ => none

/-- Model of `strconv.ParseFloat` restricted to the plain decimal forms
(`"4.5"`, `"5"`, `".5"`, optional sign) that rating attributes carry; the
exotic inputs ParseFloat also accepts (exponents, hex floats, Inf/NaN) are
out of scope here, and float64 rounding is modelled as exact `ℚ` value. -/
def parseFloat? (s : String) : Option ℚ :=
  match s.data with
  | '-' :: rest => (parseFloatCore rest).map (fun q => -q)
  | '+' :: rest => parseFloatCore rest
  | l => parseFloatCore l

/-- The `parseRating` closure: left-hand side of an `"x/y"` display
string, trimmed and parsed as a float; unparseable input yields the -1
sentinel. -/
def parseRating (raw : String) : ℚ :=
  match (splitOnStr raw "/").head? with
  | some p =>
    match parseFloat? (trimStr p) with
    | some r => r
    | none => -1
  | none => -1

/-- The `getContent` closure: the span's `data-content` attribute, or `""`
when absent. -/
def getContent (item : StatsItem) : String :=
  item.dataContent.getD ""

/-- Model of `parseStats`: the two "unstyled list" regions of the stats block,
addressed positionally (`ratingList` is `.list-unstyled` number 0,
`statsList` number 1), mutate the given `FictionStats` in two atomic
groups guarded by the length checks `≥ 12` and `≥ 10`. -/
def parseStats (ratingList statsList : List StatsItem) (stats : FictionStats) :
    FictionStats :=
  let stats1 :=
    if statsList.length ≥ 12 then
      { stats with
        pages := parseNumber (statsList.getD 11 default).text
        ratings := parseNumber (statsList.getD 9 default).text
        followers := parseNumber (statsList.getD 5 default).text
        favorites := parseNumber (statsList.getD 7 default).text
        views := ⟨parseNumber (statsList.getD 1 default).text,
                  parseNumber (statsList.getD 3 default).text⟩ }
    else stats
  if ratingList.length ≥ 10 then
    { stats1 with
      score :=
        { overall := parseRating (getContent (ratingList.getD 1 default))
          style := parseRating (getContent (ratingList.getD 3 default))
          story := parseRating (getContent (ratingList.getD 5 default))
          character := parseRating (getContent (ratingList.getD 7 default))
          grammar := parseRating (getContent (ratingList.getD 9 default)) } }
  else stats1

/-- An 8-item ratings region (below the highest used index 9). -/
def ratingItems8 : List StatsItem :=
  List.replicate 8 ⟨"", some "4.5 / 5"⟩

/-! ## Relative-timestamp parser (parseRelativeTime in the api client) -/

/-- Skip the `\s*` part of the regexps `(\d+)\s*hour` etc. -/
def skipWs (l : List Char) : List Char :=
  l.dropWhile isGoWs

/-- Single left-to-right scan implementing `regexp.FindStringSubmatch`
for the patterns `(\d+)\s*UNIT`: `pending` holds the value of the digit
run currently being read.  When the run ends, the remainder must start
(after optional whitespace) with the literal `unit`; otherwise the scan
continues after the run.  RE2 tries start positions left to right, and a
start inside a digit run can never succeed where the full run failed (the
text after the run is the same), so resuming after the run is equivalent
to RE2's leftmost-match rule. -/
def findNumScan (unit : List Char) : Option Nat → List Char → Option Nat
  | pending, [] =>
    match pending with
    | some v => if leadsWith unit [] then some v else none
    | none => none
  | pending, c :: cs =>
    if c.isDigit then
      match pending with
      | some v => findNumScan unit (some (v * 10 + (c.toNat - 48))) cs
      | none => findNumScan unit (some (c.toNat - 48)) cs
    else
      match pending with
      | some v =>
        if leadsWith unit (skipWs (c :: cs)) then some v
        else findNumScan unit none cs
      | none => findNumScan unit none cs

/-- The submatch value `matches[1]` of `(\d+)\s*UNIT` applied to `l`
(already converted by `strconv.Atoi`, which cannot fail on a digit run;
Go's `int` overflow on an absurdly long run is out of scope). -/
def findNumBefore (unit : List Char) (l : List Char) : Option Nat :=
  findNumScan unit none l

/-- Model of `parseRelativeTime(timeText)`: absolute timestamps are modelled as
`Int` seconds; `now.Add(-h*time.Hour)` subtracts `3600*h` and
`now.AddDate(0, 0, -d)` is modelled as subtracting `86400*d` fixed-length
days (the calendar arithmetic of `AddDate` across DST shifts is out of
scope).  The Go function also returns an always-`nil` error, omitted
here.  Inputs without "ago", without a recognized unit word, or without a
number before the unit all return `now` unchanged. -/
def parseRelativeTime (timeText : String) (now : Int) : Int :=
  if strContains timeText "ago" then
    if strContains timeText "hour" then
      match findNumBefore "hour".data timeText.data with
      | some h => now - 3600 * h
      | none => now
    else if strContains timeText "day" then
      match findNumBefore "day".data timeText.data with
      | some d => now - 86400 * d
      | none => now
    else if strContains timeText "week" then
      match findNumBefore "week".data timeText.data with
      | some w => now - 86400 * (7 * w)
      | none => now
    else now
  else now

/-! ## Text reflow / formatter (cleanHTML and wrapText in reader.go) -/

/-- Model of the tag-stripping regexp replacement in `cleanHTML` (the
pattern is an opening angle bracket, a run of non-closing characters,
then the closing angle bracket, replaced by the empty string), written
as a single scan: `pending` holds the characters (in reverse) since an
opening `<` whose closing `>` has not yet appeared.  A complete tag (the
first `<` up to the next `>`) is deleted; a `<` with no `>` anywhere
after it never matches the regexp, so the pending characters are kept
verbatim at end of input. -/
def stripTagsAux : Option (List Char) → List Char → List Char
  | none, [] => []
  | some acc, [] => acc.reverse
  | none, c :: cs =>
    if c = '<' then stripTagsAux (some [c]) cs
    else c :: stripTagsAux none cs
  | some acc, c :: cs =>
    if c = '>' then stripTagsAux none cs
    else stripTagsAux (some (c :: acc)) cs

def stripTags (l : List Char) : List Char :=
  stripTagsAux none l

/-- Model of the whitespace-collapsing regexp replacement in `cleanHTML`
(one or more whitespace characters become a single space) as a single
scan: `sawWs` records whether the previous character was part of a
whitespace run already replaced by one space. -/
def collapseWsAux : Bool → List Char → List Char
  | _, [] => []
  | sawWs, c :: cs =>
    if isGoWs c then
      if sawWs then collapseWsAux true cs
      else ' ' :: collapseWsAux true cs
    else c :: collapseWsAux false cs

def collapseWs (l : List Char) : List Char :=
  collapseWsAux false l

/-- Model of `cleanHTML`: entity decoding (`html.UnescapeString`) is modelled as
the identity — none of the verified claims exercises the entity table —
then tags are stripped, whitespace runs collapse to single spaces, the
text is trimmed, and paragraphs are heuristically reconstructed by
splitting at `". "` and re-joining with blank lines, re-appending the
period to every fragment but the last when missing. -/
def cleanHTML (htmlContent : String) : String :=
  let content := String.mk (stripTags htmlContent.data)
  let content := trimStr (String.mk (collapseWs content.data))
  let paragraphs := splitOnStr content ". "
  if paragraphs.length > 1 then
    let n := paragraphs.length
    let result := paragraphs.enum.foldl
      (fun acc ip =>
        let p := trimStr ip.2
        if p ≠ "" then
          acc ++ [if ip.1 < n - 1 ∧ endsWithStr p "." = false then p ++ "." else p]
        else acc)
      []
    joinWith "\n\n" result
  else content

/-- Model of Go `strings.Fields`: split on whitespace, dropping empty
fragments. -/
def fields (s : String) : List String :=
  ((splitOnPred (fun c => c.isWhitespace) s.data).filter (fun w => w ≠ [])).map
    (fun l => String.mk l)

/-- The greedy word-wrap loop of `wrapText` over one paragraph's words:
a word joins the current line when `len(currentLine)+len(word)+1 ≤ width`
(Go byte lengths; the verified inputs are ASCII, where byte and character
counts agree); otherwise the current line (when non-empty) is emitted and
the word starts a new line. -/
def greedyLines (width : Int) : List String → String → List String
  | [], currentLine => if currentLine ≠ "" then [currentLine] else []
  | w :: ws, currentLine =>
    if (currentLine.length : Int) + (w.length : Int) + 1 ≤ width then
      if currentLine = "" then greedyLines width ws w
      else greedyLines width ws (currentLine ++ " " ++ w)
    else
      if currentLine ≠ "" then currentLine :: greedyLines width ws w
      else greedyLines width ws w

/-- Model of `wrapText(text, width)`: widths of at most 20 are replaced by 40
("minimum readable width"); the text splits into paragraphs at blank
lines, each non-blank paragraph is greedily wrapped, and the wrapped
paragraphs re-join with blank lines. -/
def wrapText (text : String) (width0 : Int) : String :=
  let width := if width0 ≤ 20 then 40 else width0
  let paragraphs := splitOnStr text "\n\n"
  let wrapped := paragraphs.foldl
    (fun acc paragraph =>
      if trimStr paragraph = "" then acc
      else
        let words := fields paragraph
        if words = [] then acc
        else acc ++ [joinWith "\n" (greedyLines width words "")])
    []
  joinWith "\n\n" wrapped

/-- The lipgloss author-note block, modelled by its text content (the
border, italics and colors are pure presentation). -/
def renderAuthorNote (note : String) : String :=
  "Author's Note: " ++ note

/-- Model of `formatChapterContent`: optional pre-note block, the cleaned chapter
body wrapped to `max(termWidth-4, 40)` columns, optional post-note
block. -/
def formatChapterContent (ch : Chapter) (termWidth : Int) : String :=
  let pre := if ch.preNote ≠ "" then renderAuthorNote ch.preNote ++ "\n\n" else ""
  let textWidth := max (termWidth - 4) 40
  let body := wrapText (cleanHTML ch.content) textWidth
  let post := if ch.postNote ≠ "" then "\n\n" ++ renderAuthorNote ch.postNote else ""
  pre ++ body ++ post

/-! ## Pagination & reading state machine (ReaderModel in reader.go) -/

/-- Model of `ReaderModel`: the reader's session state.  The embedded `*Config` is
represented by its two mutable fields (`ReadingHistory`, `LastFiction`);
`config.Load` always returns a non-nil config, so the nil-config guards
of the source never fire.  `savedChapterProgress` is a Go `float64`,
modelled as `ℚ`. -/
structure ReaderState where
  fictionID : String
  fiction : Option Fiction
  currentChapter : Option Chapter
  chapterIndex : Nat
  startChapter : Int
  loading : Bool
  err : Bool
  showHelp : Bool
  showTOC : Bool
  ready : Bool
  history : List ReadingEntry
  lastFiction : String
  content : List String
  currentPage : Nat
  linesPerPage : Nat
  totalPages : Nat
  termWidth : Int
  termHeight : Int
  goToLastPage : Bool
  savedChapterProgress : ℚ
  deriving Repr, DecidableEq, Inhabited

/-- The keys the reader's `Update` dispatches on. -/
inductive RKey where
  | quit | menu | help | toc | nextCh | prevCh | nextPage | prevPage
  | firstPage | lastPage | refresh
  | digit (d : Nat)
  deriving Repr, DecidableEq

/-- The messages delivered to `ReaderModel.Update`. -/
inductive Msg where
  | windowSize (width height : Int)
  | key (k : RKey)
  | fictionLoaded (fic : Fiction)
  | chapterLoaded (ch : Chapter) (index : Nat)
  | errorMsg
  deriving Repr, DecidableEq

/-- Model of `NewReaderModel`: terminal size is an input here (the `term.GetSize`
call, with its 80×24 fallback, is an external collaborator).  Struct
fields not named in the Go composite literal — `totalPages` among them —
take their zero value. -/
def newReaderModel (fictionID : String) (termWidth termHeight : Int)
    (history : List ReadingEntry) (lastFiction : String) : ReaderState :=
  { fictionID := fictionID
    fiction := none
    currentChapter := none
    chapterIndex := 0
    startChapter := 0
    loading := true
    err := false
    showHelp := false
    showTOC := false
    ready := true
    history := history
    lastFiction := lastFiction
    content := []
    currentPage := 0
    -- headerHeight 4, footerHeight 1
    linesPerPage := (max (termHeight - 5) 10).toNat
    totalPages := 0
    termWidth := termWidth
    termHeight := termHeight
    goToLastPage := false
    savedChapterProgress := 0 }

/-- Model of `SetStartChapter`. -/
def setStartChapter (m : ReaderState) (chapterIndex : Int) : ReaderState :=
  { m with startChapter := chapterIndex }

/-- Model of `restoreReadingPosition`: the first history entry for this fiction
(if any) overrides `startChapter` when it was not explicitly set (still
0), and a positive saved fraction for the same chapter becomes the
pending restore directive. -/
def restoreReadingPosition (m : ReaderState) : ReaderState :=
  match m.history.find? (fun e => e.fictionID == m.fictionID) with
  | none => m
  | some entry =>
    let sc := if m.startChapter = 0 then entry.currentChapter else m.startChapter
    let prog :=
      if sc = entry.currentChapter ∧ entry.chapterProgress > 0 then entry.chapterProgress
      else m.savedChapterProgress
    { m with startChapter := sc, savedChapterProgress := prog }

/-- Model of `saveReadingProgress`: build a `ReadingEntry` for the current position
(`chapterProgress = currentPage/totalPages`, capped at 1, or 0 when no
pages) and upsert it into the history.  `LastRead` is wall-clock time,
out of scope, modelled as `""`. -/
def saveReadingProgress (m : ReaderState) : ReaderState :=
  match m.fiction with
  | none => m
  | some fic =>
    let chapterTitle :=
      if m.chapterIndex < fic.chapters.length then
        (fic.chapters.getD m.chapterIndex default).title
      else ""
    let chapterProgress : ℚ :=
      if m.totalPages > 0 then
        let p : ℚ := (m.currentPage : ℚ) / (m.totalPages : ℚ)
        if p > 1 then 1 else p
      else 0
    let entry : ReadingEntry :=
      { fictionID := m.fictionID
        fictionTitle := fic.title
        author := fic.author.name
        currentChapter := (m.chapterIndex : Int)
        chapterTitle := chapterTitle
        chapterProgress := chapterProgress
        lastRead := ""
        totalChapters := fic.chapters.length }
    { m with history := updateReadingProgress m.history entry, lastFiction := m.fictionID }

/-- Model of `updateContent`: reformat the loaded chapter, split into lines,
recompute `totalPages` and re-clamp `currentPage`.  (Note
`strings.Split` never returns an empty slice, so the
`len(m.content) == 0` branch is dead in Go and here.) -/
def updateContent (m : ReaderState) : ReaderState :=
  match m.currentChapter with
  | none => m
  | some ch =>
    let content := splitLines (formatChapterContent ch m.termWidth)
    let totalPages :=
      if content.length = 0 then 1
      else (content.length + m.linesPerPage - 1) / m.linesPerPage
    let currentPage := if m.currentPage ≥ totalPages then totalPages - 1 else m.currentPage
    { m with content := content, totalPages := totalPages, currentPage := currentPage }

/-- The page-landing block of the `chapterLoadedMsg` case: go-to-last-page
takes precedence, then a pending positive saved-progress fraction
(`currentPage = int(float64(totalPages) * progress)`, clamped to the last
page; `int()` truncation coincides with the floor since both factors are
positive here), else page 0. -/
def applyLanding (m2 : ReaderState) : ReaderState :=
  if m2.goToLastPage then
    { (if m2.totalPages > 0 then { m2 with currentPage := m2.totalPages - 1 } else m2) with
      goToLastPage := false }
  else if m2.savedChapterProgress > 0 then
    let m2' :=
      if m2.totalPages > 0 then
        let target := ⌊(m2.totalPages : ℚ) * m2.savedChapterProgress⌋.toNat
        if target ≥ m2.totalPages then { m2 with currentPage := m2.totalPages - 1 }
        else { m2 with currentPage := target }
      else m2
    { m2' with savedChapterProgress := 0 }
  else { m2 with currentPage := 0 }

/-- Model of `ReaderModel.Update`: one transition of the reading state machine.
Commands returned to the runtime (chapter fetches) are not part of the
state; the fetch result arrives later as `chapterLoaded`/`errorMsg`. -/
def update (m : ReaderState) (msg : Msg) : ReaderState :=
  match msg with
  | .windowSize w h =>
    let m1 := { m with termWidth := w, termHeight := h,
                       linesPerPage := (max (h - 5) 10).toNat, ready := true }
    if m1.currentChapter.isSome then updateContent m1 else m1
  | .key k =>
    match k with
    | .quit => saveReadingProgress m
    | .menu => saveReadingProgress m
    | .help => { m with showHelp := !m.showHelp }
    | .toc => if m.fiction.isSome then { m with showTOC := !m.showTOC } else m
    | .nextCh =>
      match m.fiction with
      | some fic =>
        if m.chapterIndex < fic.chapters.length - 1 then
          { m with chapterIndex := m.chapterIndex + 1, loading := true }
        else m
      | none => m
    | .prevCh =>
      match m.fiction with
      | some _ =>
        if m.chapterIndex > 0 then
          { m with chapterIndex := m.chapterIndex - 1, loading := true, goToLastPage := true }
        else m
      | none => m
    | .nextPage =>
      if m.currentPage < m.totalPages - 1 then { m with currentPage := m.currentPage + 1 }
      else
        match m.fiction with
        | some fic =>
          if m.chapterIndex < fic.chapters.length - 1 then
            { m with chapterIndex := m.chapterIndex + 1, loading := true }
          else m
        | none => m
    | .prevPage =>
      if m.currentPage > 0 then { m with currentPage := m.currentPage - 1 }
      else
        match m.fiction with
        | some _ =>
          if m.chapterIndex > 0 then
            { m with chapterIndex := m.chapterIndex - 1, loading := true, goToLastPage := true }
          else m
        | none => m
    | .firstPage => { m with currentPage := 0 }
    | .lastPage =>
      if m.totalPages > 0 then { m with currentPage := m.totalPages - 1 } else m
    | .refresh => { m with loading := true, err := false }
    | .digit d =>
      if m.showTOC then
        match m.fiction with
        | some fic =>
          if 1 ≤ d ∧ d ≤ fic.chapters.length then
            { m with chapterIndex := d - 1, loading := true, showTOC := false }
          else m
        | none => m
      else m
  | .fictionLoaded fic =>
    let m1 := { m with loading := false, fiction := some fic }
    if fic.chapters.length > 0 then m1
    else { m1 with err := true }
  | .chapterLoaded ch idx =>
    let m1 := { m with loading := false, currentChapter := some ch, chapterIndex := idx }
    saveReadingProgress (applyLanding (updateContent m1))
  | .errorMsg => { m with loading := false, err := true }

/-! ## The pagination invariant (claim C3) -/

/-- The pagination invariant of §8 of the spec, conditioned on a chapter
being loaded: once `currentChapter` is set, `totalPages` is
`max(1, ceil(lineCount/linesPerPage))` (for naturals,
`ceil(L/p) = (L+p-1)/p`) and `currentPage` lies in `[0, totalPages)`. -/
def PaginationInv (m : ReaderState) : Prop :=
  1 ≤ m.linesPerPage ∧
  (m.currentChapter.isSome = true →
    m.content ≠ [] ∧
    m.totalPages = max 1 ((m.content.length + m.linesPerPage - 1) / m.linesPerPage) ∧
    m.currentPage < m.totalPages)

instance (m : ReaderState) : Decidable (PaginationInv m) :=
  inferInstanceAs (Decidable (1 ≤ m.linesPerPage ∧
    (m.currentChapter.isSome = true →
      m.content ≠ [] ∧
      m.totalPages = max 1 ((m.content.length + m.linesPerPage - 1) / m.linesPerPage) ∧
      m.currentPage < m.totalPages)))

/-- A concrete reader state with a loaded two-line chapter, one line per
page, on its last page. -/
def sampleLoadedState : ReaderState :=
  ⟨"1", none, some ⟨"hi", "", "", -1, -1⟩, 0, 0, false, false, false, false, true,
   [], "", ["a", "b"], 1, 1, 2, 80, 24, false, 0⟩

/-! ## Chapter-load landing directives (claims C4, C5, C6) -/

/-- A fresh reader with a pending saved fraction of 1/2. -/
def sampleRestoreState : ReaderState :=
  { newReaderModel "1" 80 24 [] "" with savedChapterProgress := 1 / 2 }

/-- A two-chapter fiction and a small chapter for concrete witnesses. -/
def sampleFiction : Fiction :=
  ⟨1, "", "T", "", "", [], [], "", zeroStats, ⟨0, "", "", ""⟩,
   [⟨11, "c1", 0⟩, ⟨12, "c2", 0⟩]⟩

def sampleChapter : Chapter :=
  ⟨"hi", "", "", -1, -1⟩

/-- Reader on the last page (page 2 of 2) of chapter 0 of `sampleFiction`. -/
def sampleReaderAtLastPage : ReaderState :=
  ⟨"1", some sampleFiction, some sampleChapter, 0, 0, false, false, false, false, true,
   [], "", ["a", "b"], 1, 1, 2, 80, 24, false, 0⟩

/-- Reader on page 0 of chapter 1 of `sampleFiction`. -/
def sampleReaderAtFirstPage : ReaderState :=
  ⟨"1", some sampleFiction, some sampleChapter, 1, 0, false, false, false, false, true,
   [], "", ["a", "b"], 0, 1, 2, 80, 24, false, 0⟩

/-! ## Theorems settling the claims, with their supporting lemmas -/

theorem splitOnChar_ne_nil (sep : Char) (l : List Char) : splitOnChar sep l ≠ [] := by
  induction l with
  | nil => simp [splitOnChar]
  | cons c cs ih =>
    simp only [splitOnChar]
    split
    · simp
    · split
      · simp
      · simp

theorem splitLines_ne_nil (s : String) : splitLines s ≠ [] := by
  have h := splitOnChar_ne_nil '\n' s.data
  simp [splitLines]
  intro hc
  exact h hc

theorem removeFirstMatch_none {fid : String} {h : List ReadingEntry}
    (hn : removeFirstMatch fid h = none) :
    h.countP (fun x => x.fictionID == fid) = 0 := by
  induction h with
  | nil => simp
  | cons x xs ih =>
    simp only [removeFirstMatch] at hn
    by_cases hx : (x.fictionID == fid) = true
    · simp [hx] at hn
    · have hx' : (x.fictionID == fid) = false := Bool.eq_false_iff.mpr hx
      rw [hx'] at hn
      simp only [Bool.false_eq_true, ite_false, Option.map_eq_none'] at hn
      simp [List.countP_cons, hx', ih hn]

theorem removeFirstMatch_some {fid : String} {h h' : List ReadingEntry}
    (hs : removeFirstMatch fid h = some h') :
    h'.countP (fun x => x.fictionID == fid) + 1 = h.countP (fun x => x.fictionID == fid) ∧
    h'.filter (fun x => !(x.fictionID == fid)) = h.filter (fun x => !(x.fictionID == fid)) ∧
    h'.length + 1 = h.length := by
  induction h generalizing h' with
  | nil => simp [removeFirstMatch] at hs
  | cons x xs ih =>
    simp only [removeFirstMatch] at hs
    by_cases hx : (x.fictionID == fid) = true
    · rw [hx] at hs
      simp only [ite_true, Option.some.injEq] at hs
      subst hs
      refine ⟨by simp [List.countP_cons, hx], ?_, by simp⟩
      simp [List.filter_cons, hx]
    · have hx' : (x.fictionID == fid) = false := Bool.eq_false_iff.mpr hx
      rw [hx'] at hs
      simp only [Bool.false_eq_true, ite_false, Option.map_eq_some'] at hs
      obtain ⟨r, hr, hcons⟩ := hs
      obtain ⟨hc, hf, hl⟩ := ih hr
      subst hcons
      refine ⟨?_, ?_, by simp [← hl]⟩
      · simp [List.countP_cons, hx', hc]
      · simp [List.filter_cons, hx', hf]

/-- C8: `UpdateReadingProgress` has upsert-and-promote semantics.  For a
history with at most one entry per content identity: the new entry lands at
position 0; exactly one entry for its identity remains; all entries with a
different identity are preserved in order; and the length grows by one
exactly when no entry for that identity existed before. -/
theorem updateReadingProgress_upsert_promote (h : List ReadingEntry) (e : ReadingEntry)
    (hdist : ∀ fid : String, h.countP (fun x => x.fictionID == fid) ≤ 1) :
    (updateReadingProgress h e).head? = some e ∧
    (updateReadingProgress h e).countP (fun x => x.fictionID == e.fictionID) = 1 ∧
    (updateReadingProgress h e).filter (fun x => !(x.fictionID == e.fictionID)) =
      h.filter (fun x => !(x.fictionID == e.fictionID)) ∧
    ((updateReadingProgress h e).length = h.length + 1 ↔
      h.countP (fun x => x.fictionID == e.fictionID) = 0) := by
  unfold updateReadingProgress
  cases hrm : removeFirstMatch e.fictionID h with
  | none =>
    have hc := removeFirstMatch_none hrm
    refine ⟨rfl, ?_, ?_, ?_⟩
    · simp [List.countP_cons, hc]
    · simp [List.filter_cons]
    · simp [hc]
  | some rest =>
    obtain ⟨hc, hf, hl⟩ := removeFirstMatch_some hrm
    have hle := hdist e.fictionID
    have hrest : rest.countP (fun x => x.fictionID == e.fictionID) = 0 := by omega
    refine ⟨rfl, ?_, ?_, ?_⟩
    · simp [List.countP_cons, hrest]
    · simp [List.filter_cons, hf]
    · constructor
      · intro hlen
        simp only [List.length_cons] at hlen
        omega
      · intro h0
        omega

/-- Witness for C8 at a concrete two-entry history. -/
theorem updateReadingProgress_upsert_promote_witness :
    (∀ fid : String,
      ([mkEntry "7" "A" "x" 1 "c" 0 "" 3, mkEntry "9" "B" "y" 0 "d" 0 "" 2] :
        List ReadingEntry).countP (fun x => x.fictionID == fid) ≤ 1) ∧
    (updateReadingProgress [mkEntry "7" "A" "x" 1 "c" 0 "" 3, mkEntry "9" "B" "y" 0 "d" 0 "" 2]
      (mkEntry "9" "B" "y" 1 "e" 0 "" 2)).head? = some (mkEntry "9" "B" "y" 1 "e" 0 "" 2) := by
  have hd : ∀ fid : String,
      ([mkEntry "7" "A" "x" 1 "c" 0 "" 3, mkEntry "9" "B" "y" 0 "d" 0 "" 2] :
        List ReadingEntry).countP (fun x => x.fictionID == fid) ≤ 1 := by
    intro fid
    simp only [List.countP_cons, List.countP_nil, mkEntry]
    by_cases h7 : (("7" : String) == fid) = true
    · have h9 : (("9" : String) == fid) = false := by
        cases hq : (("9" : String) == fid) with
        | false => rfl
        | true =>
          have e7 : ("7" : String) = fid := eq_of_beq h7
          have e9 : ("9" : String) = fid := eq_of_beq hq
          rw [← e7] at e9
          simp at e9
      simp [h7, h9]
    · have h7' : (("7" : String) == fid) = false := Bool.eq_false_iff.mpr h7
      cases hq : (("9" : String) == fid) <;> simp [h7', hq]
  exact ⟨hd, (updateReadingProgress_upsert_promote _ _ hd).1⟩

/-- C9: history pagination.  For every 25-entry history and page size 10,
page 3 returns exactly the last 5 entries, `totalPages = 3`,
`hasNext = false` and `hasPrev = true`. -/
theorem getReadingHistoryPage_25_page3 (h : List ReadingEntry) (hlen : h.length = 25) :
    getReadingHistoryPage h 3 10 = (h.drop 20, 3, false, true) ∧
    (h.drop 20).length = 5 := by
  have h20 : (h.drop 20).length = 5 := by simp [hlen]
  refine ⟨?_, h20⟩
  simp only [getReadingHistoryPage, hlen]
  norm_num
  omega

/-- Witness for C9 on a concrete 25-entry history. -/
theorem getReadingHistoryPage_25_page3_witness :
    (List.replicate 25 (mkEntry "1" "" "" 0 "" 0 "" 0)).length = 25 ∧
    getReadingHistoryPage (List.replicate 25 (mkEntry "1" "" "" 0 "" 0 "" 0)) 3 10 =
      ((List.replicate 25 (mkEntry "1" "" "" 0 "" 0 "" 0)).drop 20, 3, false, true) :=
  ⟨by simp, (getReadingHistoryPage_25_page3 _ (by simp)).1⟩

/-- C1 counterexample: with only 8 rating items, `parseStats` (called on
the zero-initialized stats of `parseFiction`) leaves all five scores at
0, not at the sentinel -1 — refuting the claim that they are "left at the
sentinel -1 ... never at 0.0". -/
theorem parseStats_short_ratings_not_sentinel :
    ratingItems8.length < 10 ∧
    (parseStats ratingItems8 [] zeroStats).score.overall = 0 ∧
    ¬ (parseStats ratingItems8 [] zeroStats).score.overall = -1 := by
  refine ⟨by decide, by decide, by decide⟩

/-- C1 amended: if the ratings region has fewer than 10 items, the entire
score group is skipped atomically — all five score fields keep their
incoming values, hence (in the `parseFiction` context, where stats start
at the Go zero value) all five are 0, never partially filled. -/
theorem parseStats_short_ratings_atomic (ratingList statsList : List StatsItem)
    (stats : FictionStats) (h : ratingList.length < 10) :
    (parseStats ratingList statsList stats).score = stats.score ∧
    (parseStats ratingList statsList zeroStats).score.overall = 0 ∧
    (parseStats ratingList statsList zeroStats).score.style = 0 ∧
    (parseStats ratingList statsList zeroStats).score.story = 0 ∧
    (parseStats ratingList statsList zeroStats).score.character = 0 ∧
    (parseStats ratingList statsList zeroStats).score.grammar = 0 := by
  have hlt : ¬ ratingList.length ≥ 10 := by omega
  have key : ∀ st : FictionStats, (parseStats ratingList statsList st).score = st.score := by
    intro st
    simp only [parseStats, hlt, ite_false]
    split <;> rfl
  refine ⟨key stats, ?_, ?_, ?_, ?_, ?_⟩ <;> rw [key zeroStats] <;> rfl

/-- Witness for the amended C1 at the concrete 8-item region. -/
theorem parseStats_short_ratings_atomic_witness :
    ratingItems8.length < 10 ∧
    (parseStats ratingItems8 [] zeroStats).score = zeroStats.score :=
  ⟨by decide, (parseStats_short_ratings_atomic ratingItems8 [] zeroStats (by decide)).1⟩

/-- C7: the relative-timestamp parser maps "3 hours ago" to now minus 3
hours, "2 days ago" to now minus 2 days, "1 week ago" to now minus 7
days; "yesterday" and, in general, any input lacking "ago", lacking a
recognized unit word, or lacking a numeric quantity before the unit,
returns now unchanged. -/
theorem parseRelativeTime_spec (now : Int) :
    parseRelativeTime "3 hours ago" now = now - 3 * 3600 ∧
    parseRelativeTime "2 days ago" now = now - 2 * 86400 ∧
    parseRelativeTime "1 week ago" now = now - 7 * 86400 ∧
    parseRelativeTime "yesterday" now = now ∧
    (∀ s : String, strContains s "ago" = false → parseRelativeTime s now = now) ∧
    (∀ s : String, strContains s "hour" = false → strContains s "day" = false →
      strContains s "week" = false → parseRelativeTime s now = now) ∧
    (∀ s : String, strContains s "hour" = true →
      findNumBefore "hour".data s.data = none → parseRelativeTime s now = now) := by
  refine ⟨?_, ?_, ?_, ?_, ?_, ?_, ?_⟩
  · have hago : strContains "3 hours ago" "ago" = true := by decide
    have hhour : strContains "3 hours ago" "hour" = true := by decide
    have hnum : findNumBefore "hour".data "3 hours ago".data = some 3 := by decide
    simp [parseRelativeTime, hago, hhour, hnum]
  · have hago : strContains "2 days ago" "ago" = true := by decide
    have hhour : strContains "2 days ago" "hour" = false := by decide
    have hday : strContains "2 days ago" "day" = true := by decide
    have hnum : findNumBefore "day".data "2 days ago".data = some 2 := by decide
    simp [parseRelativeTime, hago, hhour, hday, hnum]
  · have hago : strContains "1 week ago" "ago" = true := by decide
    have hhour : strContains "1 week ago" "hour" = false := by decide
    have hday : strContains "1 week ago" "day" = false := by decide
    have hweek : strContains "1 week ago" "week" = true := by decide
    have hnum : findNumBefore "week".data "1 week ago".data = some 1 := by decide
    simp [parseRelativeTime, hago, hhour, hday, hweek, hnum]
  · have hago : strContains "yesterday" "ago" = false := by decide
    simp [parseRelativeTime, hago]
  · intro s hs
    simp [parseRelativeTime, hs]
  · intro s h1 h2 h3
    simp [parseRelativeTime, h1, h2, h3]
  · intro s h1 h2
    simp [parseRelativeTime, h1, h2]

/-- Witness for C7, fixing `now = 0` and discharging the hypotheses of
the generic "returns now unchanged" conjuncts at concrete inputs. -/
theorem parseRelativeTime_spec_witness :
    parseRelativeTime "3 hours ago" 0 = 0 - 3 * 3600 ∧
    parseRelativeTime "soon" 0 = 0 ∧
    parseRelativeTime "3 moments ago" 0 = 0 ∧
    parseRelativeTime "an hour ago" 0 = 0 :=
  ⟨(parseRelativeTime_spec 0).1,
   (parseRelativeTime_spec 0).2.2.2.2.1 "soon" (by decide),
   (parseRelativeTime_spec 0).2.2.2.2.2.1 "3 moments ago" (by decide) (by decide) (by decide),
   (parseRelativeTime_spec 0).2.2.2.2.2.2 "an hour ago" (by decide) (by decide)⟩

theorem saveReadingProgress_pagination (m : ReaderState) :
    (saveReadingProgress m).currentChapter = m.currentChapter ∧
    (saveReadingProgress m).content = m.content ∧
    (saveReadingProgress m).currentPage = m.currentPage ∧
    (saveReadingProgress m).totalPages = m.totalPages ∧
    (saveReadingProgress m).linesPerPage = m.linesPerPage ∧
    (saveReadingProgress m).chapterIndex = m.chapterIndex ∧
    (saveReadingProgress m).goToLastPage = m.goToLastPage ∧
    (saveReadingProgress m).savedChapterProgress = m.savedChapterProgress := by
  unfold saveReadingProgress
  cases m.fiction <;> simp

theorem saveReadingProgress_currentPage (m : ReaderState) :
    (saveReadingProgress m).currentPage = m.currentPage :=
  (saveReadingProgress_pagination m).2.2.1

theorem saveReadingProgress_totalPages (m : ReaderState) :
    (saveReadingProgress m).totalPages = m.totalPages :=
  (saveReadingProgress_pagination m).2.2.2.1

theorem saveReadingProgress_chapterIndex (m : ReaderState) :
    (saveReadingProgress m).chapterIndex = m.chapterIndex :=
  (saveReadingProgress_pagination m).2.2.2.2.2.1

theorem saveReadingProgress_goToLastPage (m : ReaderState) :
    (saveReadingProgress m).goToLastPage = m.goToLastPage :=
  (saveReadingProgress_pagination m).2.2.2.2.2.2.1

theorem saveReadingProgress_savedChapterProgress (m : ReaderState) :
    (saveReadingProgress m).savedChapterProgress = m.savedChapterProgress :=
  (saveReadingProgress_pagination m).2.2.2.2.2.2.2

theorem updateContent_post (m : ReaderState) (hl : 1 ≤ m.linesPerPage)
    (ch : Chapter) (hm : m.currentChapter = some ch) :
    (updateContent m).linesPerPage = m.linesPerPage ∧
    (updateContent m).currentChapter = m.currentChapter ∧
    (updateContent m).content ≠ [] ∧
    (updateContent m).totalPages =
      max 1 (((updateContent m).content.length + m.linesPerPage - 1) / m.linesPerPage) ∧
    (updateContent m).currentPage < (updateContent m).totalPages ∧
    1 ≤ (updateContent m).totalPages ∧
    (updateContent m).goToLastPage = m.goToLastPage ∧
    (updateContent m).savedChapterProgress = m.savedChapterProgress ∧
    (updateContent m).chapterIndex = m.chapterIndex := by
  have hne := splitLines_ne_nil (formatChapterContent ch m.termWidth)
  have hlen : 1 ≤ (splitLines (formatChapterContent ch m.termWidth)).length :=
    List.length_pos.mpr hne
  have hL0 : ¬ (splitLines (formatChapterContent ch m.termWidth)).length = 0 := by omega
  have e1 : (updateContent m).linesPerPage = m.linesPerPage := by
    simp [updateContent, hm]
  have e2 : (updateContent m).currentChapter = m.currentChapter := by
    simp [updateContent, hm]
  have e3 : (updateContent m).content = splitLines (formatChapterContent ch m.termWidth) := by
    simp [updateContent, hm]
  have e4 : (updateContent m).totalPages =
      ((splitLines (formatChapterContent ch m.termWidth)).length + m.linesPerPage - 1) /
        m.linesPerPage := by
    simp [updateContent, hm, hL0]
  have e5 : (updateContent m).currentPage =
      if m.currentPage ≥
          ((splitLines (formatChapterContent ch m.termWidth)).length + m.linesPerPage - 1) /
            m.linesPerPage then
        ((splitLines (formatChapterContent ch m.termWidth)).length + m.linesPerPage - 1) /
          m.linesPerPage - 1
      else m.currentPage := by
    simp [updateContent, hm, hL0]
  have e6 : (updateContent m).goToLastPage = m.goToLastPage := by
    simp [updateContent, hm]
  have e7 : (updateContent m).savedChapterProgress = m.savedChapterProgress := by
    simp [updateContent, hm]
  have e8 : (updateContent m).chapterIndex = m.chapterIndex := by
    simp [updateContent, hm]
  have htp : 1 ≤ ((splitLines (formatChapterContent ch m.termWidth)).length +
      m.linesPerPage - 1) / m.linesPerPage := by
    rw [Nat.one_le_div_iff (by omega)]
    omega
  refine ⟨e1, e2, by rw [e3]; exact hne, ?_, ?_, ?_, e6, e7, e8⟩
  · rw [e4, e3]
    exact (Nat.max_eq_right htp).symm
  · rw [e5, e4]
    split <;> omega
  · rw [e4]
    exact htp

theorem applyLanding_goLast (m2 : ReaderState) (hg : m2.goToLastPage = true)
    (htp : 0 < m2.totalPages) :
    applyLanding m2 =
      { { m2 with currentPage := m2.totalPages - 1 } with goToLastPage := false } := by
  unfold applyLanding
  rw [hg, if_pos rfl, if_pos htp]

theorem applyLanding_restore (m2 : ReaderState) (hg : m2.goToLastPage = false)
    (hp : 0 < m2.savedChapterProgress) (htp : 0 < m2.totalPages) :
    applyLanding m2 =
      { (if ⌊(m2.totalPages : ℚ) * m2.savedChapterProgress⌋.toNat ≥ m2.totalPages then
          { m2 with currentPage := m2.totalPages - 1 }
        else
          { m2 with currentPage := ⌊(m2.totalPages : ℚ) * m2.savedChapterProgress⌋.toNat })
        with savedChapterProgress := 0 } := by
  unfold applyLanding
  rw [hg, if_neg Bool.false_ne_true, if_pos hp, if_pos htp]

theorem applyLanding_first_page (m2 : ReaderState) (hg : m2.goToLastPage = false)
    (hp : ¬ 0 < m2.savedChapterProgress) :
    applyLanding m2 = { m2 with currentPage := 0 } := by
  unfold applyLanding
  rw [hg, if_neg Bool.false_ne_true, if_neg hp]

theorem applyLanding_fields (m2 : ReaderState) (htp : 1 ≤ m2.totalPages) :
    (applyLanding m2).content = m2.content ∧
    (applyLanding m2).linesPerPage = m2.linesPerPage ∧
    (applyLanding m2).totalPages = m2.totalPages ∧
    (applyLanding m2).currentChapter = m2.currentChapter ∧
    (applyLanding m2).chapterIndex = m2.chapterIndex ∧
    (applyLanding m2).currentPage < m2.totalPages := by
  by_cases hg : m2.goToLastPage = true
  · rw [applyLanding_goLast m2 hg (by omega)]
    exact ⟨rfl, rfl, rfl, rfl, rfl, by show m2.totalPages - 1 < m2.totalPages; omega⟩
  · have hg' : m2.goToLastPage = false := Bool.eq_false_iff.mpr hg
    by_cases hp : 0 < m2.savedChapterProgress
    · rw [applyLanding_restore m2 hg' hp (by omega)]
      split
      next htarget =>
        exact ⟨rfl, rfl, rfl, rfl, rfl, by show m2.totalPages - 1 < m2.totalPages; omega⟩
      next htarget =>
        exact ⟨rfl, rfl, rfl, rfl, rfl,
          by show ⌊(m2.totalPages : ℚ) * m2.savedChapterProgress⌋.toNat < m2.totalPages
             omega⟩
    · rw [applyLanding_first_page m2 hg' hp]
      exact ⟨rfl, rfl, rfl, rfl, rfl, by show (0 : Nat) < m2.totalPages; omega⟩

theorem saveReadingProgress_inv (m : ReaderState) (h : PaginationInv m) :
    PaginationInv (saveReadingProgress m) := by
  obtain ⟨hl, hch⟩ := h
  have hsp := saveReadingProgress_pagination m
  refine ⟨?_, fun hs => ?_⟩
  · rw [hsp.2.2.2.2.1]; exact hl
  · rw [hsp.1] at hs
    obtain ⟨a, b, c⟩ := hch hs
    refine ⟨?_, ?_, ?_⟩
    · rw [hsp.2.1]; exact a
    · rw [hsp.2.2.2.1, hsp.2.1, hsp.2.2.2.2.1]; exact b
    · rw [hsp.2.2.1, hsp.2.2.2.1]; exact c

/-- C3 (amended): every transition of the reading state machine preserves
the pagination invariant — in particular, the chapter-loaded transition
establishes its pagination equations outright, since it makes
`currentChapter` non-nil and recomputes the pages. -/
theorem update_preserves_paginationInv (m : ReaderState) (msg : Msg)
    (h : PaginationInv m) : PaginationInv (update m msg) := by
  obtain ⟨hl, hch⟩ := h
  cases msg with
  | windowSize w hgt =>
    simp only [update]
    have hl1 : 1 ≤ (max (hgt - 5) 10).toNat := by
      have h10 : (10 : Int) ≤ max (hgt - 5) 10 := le_max_right _ _
      omega
    split
    case isTrue hsome =>
      obtain ⟨c, hc⟩ := Option.isSome_iff_exists.mp hsome
      have hpost := updateContent_post
        { m with termWidth := w, termHeight := hgt,
                 linesPerPage := (max (hgt - 5) 10).toNat, ready := true }
        hl1 c hc
      refine ⟨?_, fun _ => ⟨hpost.2.2.1, ?_, hpost.2.2.2.2.1⟩⟩
      · rw [hpost.1]; exact hl1
      · rw [hpost.1]; exact hpost.2.2.2.1
    case isFalse hnone =>
      exact ⟨hl1, fun hs => absurd hs hnone⟩
  | errorMsg =>
    exact ⟨hl, fun hs => hch hs⟩
  | fictionLoaded fic =>
    simp only [update]
    split
    · exact ⟨hl, fun hs => hch hs⟩
    · exact ⟨hl, fun hs => hch hs⟩
  | chapterLoaded ch idx =>
    simp only [update]
    have hpost := updateContent_post
      { m with loading := false, currentChapter := some ch, chapterIndex := idx }
      hl ch rfl
    set m2 := updateContent
      { m with loading := false, currentChapter := some ch, chapterIndex := idx } with hm2
    have htp2 : 1 ≤ m2.totalPages := hpost.2.2.2.2.2.1
    have hland := applyLanding_fields m2 htp2
    apply saveReadingProgress_inv
    refine ⟨?_, fun _ => ⟨?_, ?_, ?_⟩⟩
    · rw [hland.2.1, hpost.1]; exact hl
    · rw [hland.1]; exact hpost.2.2.1
    · rw [hland.2.2.1, hland.1, hland.2.1, hpost.1]
      exact hpost.2.2.2.1
    · rw [hland.2.2.1]; exact hland.2.2.2.2.2
  | key k =>
    cases k with
    | quit => exact saveReadingProgress_inv m ⟨hl, hch⟩
    | menu => exact saveReadingProgress_inv m ⟨hl, hch⟩
    | help => exact ⟨hl, fun hs => hch hs⟩
    | toc =>
      simp only [update]
      split
      · exact ⟨hl, fun hs => hch hs⟩
      · exact ⟨hl, fun hs => hch hs⟩
    | nextCh =>
      cases hfic : m.fiction with
      | none =>
        simp only [update, hfic]
        exact ⟨hl, hch⟩
      | some fic =>
        simp only [update, hfic]
        split
        · exact ⟨hl, fun hs => hch hs⟩
        · exact ⟨hl, hch⟩
    | prevCh =>
      cases hfic : m.fiction with
      | none =>
        simp only [update, hfic]
        exact ⟨hl, hch⟩
      | some fic =>
        simp only [update, hfic]
        split
        · exact ⟨hl, fun hs => hch hs⟩
        · exact ⟨hl, hch⟩
    | nextPage =>
      cases hfic : m.fiction with
      | none =>
        simp only [update, hfic]
        split
        case isTrue hlt =>
          refine ⟨hl, fun hs => ?_⟩
          obtain ⟨a, b, c⟩ := hch hs
          exact ⟨a, b, by show m.currentPage + 1 < m.totalPages; omega⟩
        case isFalse hlt => exact ⟨hl, hch⟩
      | some fic =>
        simp only [update, hfic]
        split
        case isTrue hlt =>
          refine ⟨hl, fun hs => ?_⟩
          obtain ⟨a, b, c⟩ := hch hs
          exact ⟨a, b, by show m.currentPage + 1 < m.totalPages; omega⟩
        case isFalse hlt =>
          split
          · exact ⟨hl, fun hs => hch hs⟩
          · exact ⟨hl, hch⟩
    | prevPage =>
      cases hfic : m.fiction with
      | none =>
        simp only [update, hfic]
        split
        case isTrue hlt =>
          refine ⟨hl, fun hs => ?_⟩
          obtain ⟨a, b, c⟩ := hch hs
          exact ⟨a, b, by show m.currentPage - 1 < m.totalPages; omega⟩
        case isFalse hlt => exact ⟨hl, hch⟩
      | some fic =>
        simp only [update, hfic]
        split
        case isTrue hlt =>
          refine ⟨hl, fun hs => ?_⟩
          obtain ⟨a, b, c⟩ := hch hs
          exact ⟨a, b, by show m.currentPage - 1 < m.totalPages; omega⟩
        case isFalse hlt =>
          split
          · exact ⟨hl, fun hs => hch hs⟩
          · exact ⟨hl, hch⟩
    | firstPage =>
      refine ⟨hl, fun hs => ?_⟩
      obtain ⟨a, b, c⟩ := hch hs
      exact ⟨a, b, by show (0 : Nat) < m.totalPages; omega⟩
    | lastPage =>
      simp only [update]
      split
      case isTrue htp =>
        refine ⟨hl, fun hs => ?_⟩
        obtain ⟨a, b, c⟩ := hch hs
        exact ⟨a, b, by show m.totalPages - 1 < m.totalPages; omega⟩
      case isFalse htp => exact ⟨hl, hch⟩
    | refresh => exact ⟨hl, fun hs => hch hs⟩
    | digit d =>
      cases hfic : m.fiction with
      | none =>
        simp only [update, hfic]
        split
        · exact ⟨hl, hch⟩
        · exact ⟨hl, hch⟩
      | some fic =>
        simp only [update, hfic]
        split
        case isTrue hshow =>
          split
          · exact ⟨hl, fun hs => hch hs⟩
          · exact ⟨hl, hch⟩
        case isFalse hshow => exact ⟨hl, hch⟩

/-- C3 counterexample: in the freshly constructed reader (no chapter
loaded yet, `totalPages` at its zero value 0), a resize transition leaves
`totalPages = 0`, violating both `totalPages = max(1, ceil(L/linesPerPage))`
(which demands 1 for the empty line list) and `0 ≤ currentPage < totalPages`
— so the invariant does not hold after *every* transition, only once a
chapter has been loaded. -/
theorem resize_before_load_violates_pagination :
    1 ≤ (update (newReaderModel "1" 80 24 [] "") (.windowSize 80 24)).linesPerPage ∧
    (update (newReaderModel "1" 80 24 [] "") (.windowSize 80 24)).totalPages = 0 ∧
    ¬ ((update (newReaderModel "1" 80 24 [] "") (.windowSize 80 24)).totalPages =
        max 1 (((update (newReaderModel "1" 80 24 [] "") (.windowSize 80 24)).content.length +
          (update (newReaderModel "1" 80 24 [] "") (.windowSize 80 24)).linesPerPage - 1) /
          (update (newReaderModel "1" 80 24 [] "") (.windowSize 80 24)).linesPerPage) ∧
       (update (newReaderModel "1" 80 24 [] "") (.windowSize 80 24)).currentPage <
        (update (newReaderModel "1" 80 24 [] "") (.windowSize 80 24)).totalPages) := by
  refine ⟨by decide, by decide, by decide⟩

/-- Witness for the amended C3 on a concrete loaded state and transition. -/
theorem update_preserves_paginationInv_witness :
    PaginationInv sampleLoadedState ∧
    PaginationInv (update sampleLoadedState (.key .nextPage)) :=
  ⟨by decide, update_preserves_paginationInv _ _ (by decide)⟩

theorem updateContent_flags (m : ReaderState) :
    (updateContent m).goToLastPage = m.goToLastPage ∧
    (updateContent m).savedChapterProgress = m.savedChapterProgress ∧
    (updateContent m).chapterIndex = m.chapterIndex := by
  unfold updateContent
  cases m.currentChapter <;> simp

theorem landing_first_page_projections (z : ReaderState) (hg : z.goToLastPage = false)
    (hp : ¬ 0 < z.savedChapterProgress) :
    (saveReadingProgress (applyLanding z)).currentPage = 0 ∧
    (saveReadingProgress (applyLanding z)).chapterIndex = z.chapterIndex := by
  rw [applyLanding_first_page z hg hp, saveReadingProgress_currentPage,
    saveReadingProgress_chapterIndex]
  exact ⟨rfl, rfl⟩

theorem landing_goLast_projections (z : ReaderState) (hg : z.goToLastPage = true)
    (htp : 0 < z.totalPages) :
    (saveReadingProgress (applyLanding z)).currentPage =
      (saveReadingProgress (applyLanding z)).totalPages - 1 ∧
    1 ≤ (saveReadingProgress (applyLanding z)).totalPages ∧
    (saveReadingProgress (applyLanding z)).chapterIndex = z.chapterIndex ∧
    (saveReadingProgress (applyLanding z)).goToLastPage = false := by
  rw [applyLanding_goLast z hg htp, saveReadingProgress_currentPage,
    saveReadingProgress_totalPages, saveReadingProgress_chapterIndex,
    saveReadingProgress_goToLastPage]
  exact ⟨rfl, htp, rfl, rfl⟩

/-- The default landing directive: a chapter loaded with neither
go-to-last-page nor a pending restore fraction lands on page 0. -/
theorem chapterLoaded_default_first_page (m : ReaderState) (ch : Chapter) (idx : Nat)
    (hg : m.goToLastPage = false) (hs : m.savedChapterProgress = 0) :
    (update m (.chapterLoaded ch idx)).currentPage = 0 ∧
    (update m (.chapterLoaded ch idx)).chapterIndex = idx := by
  have hfl := updateContent_flags
    { m with loading := false, currentChapter := some ch, chapterIndex := idx }
  have hs2 : (updateContent
      { m with loading := false, currentChapter := some ch,
               chapterIndex := idx }).savedChapterProgress = 0 := by
    rw [hfl.2.1]; exact hs
  have key := landing_first_page_projections
    (updateContent { m with loading := false, currentChapter := some ch, chapterIndex := idx })
    (by rw [hfl.1]; exact hg) (by rw [hs2]; exact lt_irrefl 0)
  exact ⟨key.1, key.2.trans hfl.2.2⟩

/-- The go-to-last-page landing directive: a chapter loaded with the
`goToLastPage` flag set lands on its last page and clears the flag. -/
theorem chapterLoaded_go_to_last (m : ReaderState) (ch : Chapter) (idx : Nat)
    (hg : m.goToLastPage = true) (hl : 1 ≤ m.linesPerPage) :
    (update m (.chapterLoaded ch idx)).currentPage =
      (update m (.chapterLoaded ch idx)).totalPages - 1 ∧
    1 ≤ (update m (.chapterLoaded ch idx)).totalPages ∧
    (update m (.chapterLoaded ch idx)).chapterIndex = idx ∧
    (update m (.chapterLoaded ch idx)).goToLastPage = false := by
  have hpost := updateContent_post
    { m with loading := false, currentChapter := some ch, chapterIndex := idx } hl ch rfl
  have hfl := updateContent_flags
    { m with loading := false, currentChapter := some ch, chapterIndex := idx }
  have key := landing_goLast_projections
    (updateContent { m with loading := false, currentChapter := some ch, chapterIndex := idx })
    (by rw [hfl.1]; exact hg) hpost.2.2.2.2.2.1
  exact ⟨key.1, key.2.1, key.2.2.1.trans hfl.2.2, key.2.2.2⟩

/-- C5: at the last page of a non-final chapter, the next-page key
advances to chapter `chapterIndex+1` (issuing its load) and the arriving
chapter lands on page 0; at the last page of the final chapter the
next-page key leaves the state unchanged. -/
theorem advancePage_at_chapter_end (m : ReaderState) (fic : Fiction) (ch : Chapter)
    (hfic : m.fiction = some fic)
    (hlast : m.currentPage = m.totalPages - 1)
    (hg : m.goToLastPage = false) (hs : m.savedChapterProgress = 0) :
    (m.chapterIndex < fic.chapters.length - 1 →
      (update m (.key .nextPage)).chapterIndex = m.chapterIndex + 1 ∧
      (update m (.key .nextPage)).loading = true ∧
      (update (update m (.key .nextPage))
        (.chapterLoaded ch (m.chapterIndex + 1))).chapterIndex = m.chapterIndex + 1 ∧
      (update (update m (.key .nextPage))
        (.chapterLoaded ch (m.chapterIndex + 1))).currentPage = 0) ∧
    (m.chapterIndex = fic.chapters.length - 1 → update m (.key .nextPage) = m) := by
  have hnolt : ¬ m.currentPage < m.totalPages - 1 := by rw [hlast]; omega
  constructor
  · intro hci
    have hkey : update m (.key .nextPage) =
        { m with chapterIndex := m.chapterIndex + 1, loading := true } := by
      simp only [update, hfic, if_neg hnolt, if_pos hci]
    have hland := chapterLoaded_default_first_page
      { m with chapterIndex := m.chapterIndex + 1, loading := true } ch
      (m.chapterIndex + 1) hg hs
    rw [hkey]
    exact ⟨rfl, rfl, hland.2, hland.1⟩
  · intro hci
    have hnoci : ¬ m.chapterIndex < fic.chapters.length - 1 := by omega
    simp only [update, hfic, if_neg hnolt, if_neg hnoci]

/-- C6: at page 0 of a non-first chapter, the previous-page key retreats
to chapter `chapterIndex-1` with the go-to-last-page directive, and the
arriving chapter lands on its last page (`totalPages-1` of the newly
loaded content); at page 0 of the first chapter the previous-page key
leaves the state unchanged. -/
theorem retreatPage_at_chapter_start (m : ReaderState) (fic : Fiction) (ch : Chapter)
    (hfic : m.fiction = some fic) (hpage0 : m.currentPage = 0)
    (hl : 1 ≤ m.linesPerPage) :
    (m.chapterIndex > 0 →
      (update m (.key .prevPage)).chapterIndex = m.chapterIndex - 1 ∧
      (update m (.key .prevPage)).goToLastPage = true ∧
      (update (update m (.key .prevPage))
        (.chapterLoaded ch (m.chapterIndex - 1))).chapterIndex = m.chapterIndex - 1 ∧
      (update (update m (.key .prevPage))
        (.chapterLoaded ch (m.chapterIndex - 1))).currentPage =
        (update (update m (.key .prevPage))
          (.chapterLoaded ch (m.chapterIndex - 1))).totalPages - 1 ∧
      1 ≤ (update (update m (.key .prevPage))
        (.chapterLoaded ch (m.chapterIndex - 1))).totalPages) ∧
    (m.chapterIndex = 0 → update m (.key .prevPage) = m) := by
  have hno : ¬ m.currentPage > 0 := by omega
  constructor
  · intro hci
    have hkey : update m (.key .prevPage) =
        { m with chapterIndex := m.chapterIndex - 1, loading := true,
                 goToLastPage := true } := by
      simp only [update, hfic, if_neg hno, if_pos hci]
    have hland := chapterLoaded_go_to_last
      { m with chapterIndex := m.chapterIndex - 1, loading := true, goToLastPage := true }
      ch (m.chapterIndex - 1) rfl hl
    rw [hkey]
    exact ⟨rfl, rfl, hland.2.2.1, hland.1, hland.2.1⟩
  · intro hci
    have hnoci : ¬ m.chapterIndex > 0 := by omega
    simp only [update, hfic, if_neg hno, if_neg hnoci]

theorem landing_restore_projections (z : ReaderState) (f : ℚ) (hg : z.goToLastPage = false)
    (hf : z.savedChapterProgress = f) (h0 : 0 < f) (htp : 0 < z.totalPages) :
    (saveReadingProgress (applyLanding z)).totalPages = z.totalPages ∧
    (saveReadingProgress (applyLanding z)).currentPage =
      (if ⌊(z.totalPages : ℚ) * f⌋.toNat ≥ z.totalPages then z.totalPages - 1
       else ⌊(z.totalPages : ℚ) * f⌋.toNat) ∧
    (saveReadingProgress (applyLanding z)).savedChapterProgress = 0 := by
  have hp : 0 < z.savedChapterProgress := by rw [hf]; exact h0
  rw [applyLanding_restore z hg hp htp, saveReadingProgress_totalPages,
    saveReadingProgress_currentPage, saveReadingProgress_savedChapterProgress, hf]
  split
  · exact ⟨rfl, rfl, rfl⟩
  · exact ⟨rfl, rfl, rfl⟩

/-- C4: when a chapter finishes loading with a pending saved fraction
`f ∈ (0,1]` (and no go-to-last-page directive), the landing page is
`clamp(floor(totalPages × f), 0, totalPages-1)`, which lies within one
unit of `floor(totalPages × f)`; the pending fraction is cleared. -/
theorem chapterLoaded_restores_fraction (m : ReaderState) (ch : Chapter) (idx : Nat) (f : ℚ)
    (hl : 1 ≤ m.linesPerPage) (hg : m.goToLastPage = false)
    (hf : m.savedChapterProgress = f) (h0 : 0 < f) (h1 : f ≤ 1) :
    ((update m (.chapterLoaded ch idx)).currentPage : ℤ) =
      max 0 (min ⌊((update m (.chapterLoaded ch idx)).totalPages : ℚ) * f⌋
        (((update m (.chapterLoaded ch idx)).totalPages : ℤ) - 1)) ∧
    (((update m (.chapterLoaded ch idx)).currentPage : ℤ) -
      ⌊((update m (.chapterLoaded ch idx)).totalPages : ℚ) * f⌋).natAbs ≤ 1 ∧
    (update m (.chapterLoaded ch idx)).savedChapterProgress = 0 := by
  have hpost := updateContent_post
    { m with loading := false, currentChapter := some ch, chapterIndex := idx } hl ch rfl
  have hfl := updateContent_flags
    { m with loading := false, currentChapter := some ch, chapterIndex := idx }
  have hEq : update m (.chapterLoaded ch idx) =
      saveReadingProgress (applyLanding (updateContent
        { m with loading := false, currentChapter := some ch, chapterIndex := idx })) := rfl
  have key := landing_restore_projections
    (updateContent { m with loading := false, currentChapter := some ch, chapterIndex := idx })
    f (by rw [hfl.1]; exact hg) (by rw [hfl.2.1]; exact hf) h0 hpost.2.2.2.2.2.1
  rw [hEq, key.1, key.2.1, key.2.2]
  set tp := (updateContent
    { m with loading := false, currentChapter := some ch,
             chapterIndex := idx }).totalPages with htpdef
  have htp : 0 < tp := hpost.2.2.2.2.2.1
  have hTnn : 0 ≤ ⌊(tp : ℚ) * f⌋ := by
    apply Int.le_floor.mpr
    push_cast
    exact mul_nonneg (Nat.cast_nonneg tp) (le_of_lt h0)
  have hTle : ⌊(tp : ℚ) * f⌋ ≤ (tp : ℤ) := by
    have hle : (tp : ℚ) * f ≤ (tp : ℚ) :=
      mul_le_of_le_one_right (Nat.cast_nonneg tp) h1
    have := Int.floor_le_floor hle
    rwa [Int.floor_natCast] at this
  have hcast : ((⌊(tp : ℚ) * f⌋.toNat : Nat) : ℤ) = ⌊(tp : ℚ) * f⌋ :=
    Int.toNat_of_nonneg hTnn
  refine ⟨?_, ?_, rfl⟩
  · split
    next hcase =>
      rw [min_eq_right (by omega), max_eq_right (by omega)]
      omega
    next hcase =>
      rw [min_eq_left (by omega), max_eq_right hTnn]
      omega
  · split
    next hcase => omega
    next hcase => omega

/-- Witness for C4 at a concrete loaded state with saved fraction 1/2. -/
theorem chapterLoaded_restores_fraction_witness :
    1 ≤ sampleRestoreState.linesPerPage ∧
    (0 : ℚ) < 1 / 2 ∧ (1 : ℚ) / 2 ≤ 1 ∧
    ((update sampleRestoreState (.chapterLoaded ⟨"hi", "", "", -1, -1⟩ 0)).currentPage : ℤ) =
      max 0 (min ⌊((update sampleRestoreState
          (.chapterLoaded ⟨"hi", "", "", -1, -1⟩ 0)).totalPages : ℚ) * (1 / 2)⌋
        (((update sampleRestoreState
          (.chapterLoaded ⟨"hi", "", "", -1, -1⟩ 0)).totalPages : ℤ) - 1)) :=
  ⟨by decide, by norm_num, by norm_num,
   (chapterLoaded_restores_fraction sampleRestoreState
     ⟨"hi", "", "", -1, -1⟩ 0 (1 / 2) (by decide) rfl rfl (by norm_num) (by norm_num)).1⟩

/-- Witness for C5 on the concrete two-chapter state. -/
theorem advancePage_at_chapter_end_witness :
    sampleReaderAtLastPage.currentPage = sampleReaderAtLastPage.totalPages - 1 ∧
    sampleReaderAtLastPage.chapterIndex < sampleFiction.chapters.length - 1 ∧
    (update sampleReaderAtLastPage (.key .nextPage)).chapterIndex =
      sampleReaderAtLastPage.chapterIndex + 1 ∧
    (update (update sampleReaderAtLastPage (.key .nextPage))
      (.chapterLoaded sampleChapter (sampleReaderAtLastPage.chapterIndex + 1))).currentPage
      = 0 := by
  have h := (advancePage_at_chapter_end sampleReaderAtLastPage sampleFiction sampleChapter
    rfl (by decide) rfl rfl).1 (by decide)
  exact ⟨by decide, by decide, h.1, h.2.2.2⟩

/-- Witness for C6 on the concrete two-chapter state. -/
theorem retreatPage_at_chapter_start_witness :
    sampleReaderAtFirstPage.currentPage = 0 ∧
    sampleReaderAtFirstPage.chapterIndex > 0 ∧
    (update sampleReaderAtFirstPage (.key .prevPage)).chapterIndex =
      sampleReaderAtFirstPage.chapterIndex - 1 ∧
    (update (update sampleReaderAtFirstPage (.key .prevPage))
      (.chapterLoaded sampleChapter (sampleReaderAtFirstPage.chapterIndex - 1))).currentPage
      = (update (update sampleReaderAtFirstPage (.key .prevPage))
        (.chapterLoaded sampleChapter
          (sampleReaderAtFirstPage.chapterIndex - 1))).totalPages - 1 := by
  have h := (retreatPage_at_chapter_start sampleReaderAtFirstPage sampleFiction sampleChapter
    rfl rfl (by decide)).1 (by decide)
  exact ⟨rfl, by decide, h.1, h.2.2.2.1⟩

/-- C10: opening the reader with an explicitly requested start chapter
`k` and a history entry for this fiction: if `k = 0` (indistinguishable
from the default), the restore step overrides the start chapter with the
entry's saved chapter index; if `k ≠ 0`, the request is never
overridden. -/
theorem restoreReadingPosition_start_override (m : ReaderState) (entry : ReadingEntry)
    (k : Int)
    (hfind : m.history.find? (fun e => e.fictionID == m.fictionID) = some entry) :
    (k = 0 →
      (restoreReadingPosition (setStartChapter m k)).startChapter = entry.currentChapter) ∧
    (k ≠ 0 →
      (restoreReadingPosition (setStartChapter m k)).startChapter = k) := by
  have hfind' : (setStartChapter m k).history.find?
      (fun e => e.fictionID == (setStartChapter m k).fictionID) = some entry := hfind
  constructor
  · intro hk
    simp only [restoreReadingPosition, hfind']
    simp [setStartChapter, hk]
  · intro hk
    simp only [restoreReadingPosition, hfind']
    simp [setStartChapter, hk]

/-- Witness for C10 at a concrete one-entry history, for both a zero and a
non-zero requested start chapter. -/
theorem restoreReadingPosition_start_override_witness :
    (restoreReadingPosition (setStartChapter
      { newReaderModel "7" 80 24 [mkEntry "7" "A" "x" 3 "c" 0 "" 5] "" with fictionID := "7" }
      0)).startChapter = 3 ∧
    (restoreReadingPosition (setStartChapter
      { newReaderModel "7" 80 24 [mkEntry "7" "A" "x" 3 "c" 0 "" 5] "" with fictionID := "7" }
      2)).startChapter = 2 := by
  have h0 := (restoreReadingPosition_start_override
    { newReaderModel "7" 80 24 [mkEntry "7" "A" "x" 3 "c" 0 "" 5] "" with fictionID := "7" }
    (mkEntry "7" "A" "x" 3 "c" 0 "" 5) 0 (by decide)).1 rfl
  have h2 := (restoreReadingPosition_start_override
    { newReaderModel "7" 80 24 [mkEntry "7" "A" "x" 3 "c" 0 "" 5] "" with fictionID := "7" }
    (mkEntry "7" "A" "x" 3 "c" 0 "" 5) 2 (by decide)).2 (by decide)
  exact ⟨h0, h2⟩

/-- C2 counterexample: a requested width of 30 columns is *not* raised to
the 40-column floor — the greedy wrap breaks at column 30, producing a
different result than width 40 on the same text. -/
theorem wrapText_below_40_not_floored :
    wrapText "aaaaaaaaaa bbbbbbbbbb cccccccccc" 30 = "aaaaaaaaaa bbbbbbbbbb\ncccccccccc" ∧
    wrapText "aaaaaaaaaa bbbbbbbbbb cccccccccc" 40 = "aaaaaaaaaa bbbbbbbbbb cccccccccc" ∧
    wrapText "aaaaaaaaaa bbbbbbbbbb cccccccccc" 30 ≠
      wrapText "aaaaaaaaaa bbbbbbbbbb cccccccccc" 40 := by
  refine ⟨by decide, by decide, by decide⟩

theorem greedyLines_fit_or_word (width : Int) :
    ∀ (ws : List String) (cur l : String), l ∈ greedyLines width ws cur →
      (l.length : Int) ≤ width ∨ l ∈ ws ∨ l = cur := by
  intro ws
  induction ws with
  | nil =>
    intro cur l hl
    simp only [greedyLines] at hl
    split at hl
    · right; right; simpa using hl
    · simp at hl
  | cons w ws ih =>
    intro cur l hl
    simp only [greedyLines] at hl
    split at hl
    next hfit =>
      split at hl
      next hemp =>
        rcases ih w l hl with h | h | h
        · exact Or.inl h
        · exact Or.inr (Or.inl (List.mem_cons_of_mem _ h))
        · exact Or.inr (Or.inl (h ▸ List.mem_cons_self _ _))
      next hemp =>
        rcases ih (cur ++ " " ++ w) l hl with h | h | h
        · exact Or.inl h
        · exact Or.inr (Or.inl (List.mem_cons_of_mem _ h))
        · left
          rw [h]
          have hone : (" " : String).length = 1 := rfl
          have hlen : (cur ++ " " ++ w).length = cur.length + 1 + w.length := by
            simp [String.length_append, hone]
          rw [hlen]
          push_cast
          linarith
    next hfit =>
      split at hl
      next hemp =>
        rcases List.mem_cons.mp hl with h | h
        · exact Or.inr (Or.inr h)
        · rcases ih w l h with h2 | h2 | h2
          · exact Or.inl h2
          · exact Or.inr (Or.inl (List.mem_cons_of_mem _ h2))
          · exact Or.inr (Or.inl (h2 ▸ List.mem_cons_self _ _))
      next hemp =>
        rcases ih w l hl with h | h | h
        · exact Or.inl h
        · exact Or.inr (Or.inl (List.mem_cons_of_mem _ h))
        · exact Or.inr (Or.inl (h ▸ List.mem_cons_self _ _))

/-- C2 amended: the 40-column floor applies only to requested widths of at
most 20 (`wrapText` then behaves exactly as at width 40); for widths of
21 and above the requested width itself is the wrap limit — every
produced line either fits in it or is a single (over-long) input word. -/
theorem wrapText_min_width_amended :
    (∀ (text : String) (w : Int), w ≤ 20 → wrapText text w = wrapText text 40) ∧
    (∀ (w : Int) (ws : List String) (l : String), 21 ≤ w →
      l ∈ greedyLines w ws "" → (l.length : Int) ≤ w ∨ l ∈ ws) := by
  constructor
  · intro text w hw
    unfold wrapText
    rw [if_pos hw, if_neg (by norm_num)]
  · intro w ws l hw hmem
    rcases greedyLines_fit_or_word w ws "" l hmem with h | h | h
    · exact Or.inl h
    · exact Or.inr h
    · left
      rw [h]
      show ((0 : Nat) : Int) ≤ w
      omega

/-- Witness for the amended C2. -/
theorem wrapText_min_width_amended_witness :
    ((10 : Int) ≤ 20 ∧ wrapText "hello world" 10 = wrapText "hello world" 40) ∧
    ((21 : Int) ≤ 21 ∧
      ((("hello" : String).length : Int) ≤ 21 ∨ "hello" ∈ (["hello"] : List String))) :=
  ⟨⟨by norm_num, wrapText_min_width_amended.1 "hello world" 10 (by norm_num)⟩,
   ⟨by norm_num, wrapText_min_width_amended.2 21 ["hello"] "hello" (by norm_num) (by decide)⟩⟩

end RoyalRoad
